import Mathlib

/-!
Verification of the goto host-edit form against its specification.

Source files embedded here:
* `internal/model/host` (the `Host` data model and its command builders),
* `internal/ui/component/hostedit/hostedit.go` (the edit-form controller).

Go strings are modelled as `List Char`; Go `int` as `Int`; Go functions that
can panic return `Option`. External collaborators (storage, the text-input
widget, the ssh option renderer) that are not part of the provided sources are
modelled from the specification and marked as such in their doc comments.
-/

/-- Go strings, modelled as lists of characters. -/
abbrev GoString := List Char

/-- Shorthand for embedding a Lean string literal as a `GoString`. -/
def gs (s : String) : GoString := s.data

/-- The single-quote character, used by the sshpass wrapper. -/
def squote : Char := Char.ofNat 39

/-- Embeds Go `unicode.IsSpace`: the white-space classification used by
`strings.TrimSpace`. -/
def goIsSpace (c : Char) : Bool :=
  decide (c.toNat = 0x20 ∨ (0x9 ≤ c.toNat ∧ c.toNat ≤ 0xD) ∨ c.toNat = 0x85 ∨
    c.toNat = 0xA0 ∨ c.toNat = 0x1680 ∨ (0x2000 ≤ c.toNat ∧ c.toNat ≤ 0x200A) ∨
    c.toNat = 0x2028 ∨ c.toNat = 0x2029 ∨ c.toNat = 0x202F ∨ c.toNat = 0x205F ∨
    c.toNat = 0x3000)

/-- Embeds Go `strings.TrimSpace`: drop white space from both ends. -/
def goTrimSpace (s : GoString) : GoString :=
  ((s.dropWhile goIsSpace).reverse.dropWhile goIsSpace).reverse

/-- Helper for `goContains`: does `sub` occur at the head of `s`? -/
def goStartsWith : GoString → GoString → Bool
  | _, [] => true
  | [], _ :: _ => false
  | c :: s, d :: t => (c == d) && goStartsWith s t

/-- Embeds Go `strings.Contains`: does `sub` occur as a contiguous substring
of `s`? -/
def goContains : GoString → GoString → Bool
  | [], sub => sub.isEmpty
  | c :: rest, sub => goStartsWith (c :: rest) sub || goContains rest sub

/-- Embeds `ssh.Config` (the resolved SSH configuration snapshot) as used by
`internal/model/host`. -/
structure SSHConfig where
  hostname : GoString
  identityFile : GoString
  port : GoString
  user : GoString
deriving DecidableEq

/-- Embeds the `Host` struct of `internal/model/host`. The Go field
`SSHClientConfig *ssh.Config` is a nullable pointer, modelled as `Option`. -/
structure Host where
  id : Int
  title : GoString
  description : GoString
  address : GoString
  remotePort : GoString
  loginName : GoString
  identityFilePath : GoString
  password : GoString
  sshClientConfig : Option SSHConfig
deriving DecidableEq

/-- Embeds `Host.Clone`: a fresh `Host` value whose seven listed fields are
copied from the receiver; `ID` and `SSHClientConfig` are left at their Go
zero values (`0` and `nil`). The receiver is read through a pointer but never
written, so the operation is pure. -/
def Host.clone (h : Host) : Host :=
  { title := h.title
    description := h.description
    address := h.address
    loginName := h.loginName
    identityFilePath := h.identityFilePath
    remotePort := h.remotePort
    password := h.password
    id := 0
    sshClientConfig := none }

/-- Embeds `Host.IsUserDefinedSSHCommand`: after trimming surrounding white
space, the address is user-defined when it contains a space or an `@`. -/
def Host.isUserDefinedSSHCommand (h : Host) : Bool :=
  let rawValue := goTrimSpace h.address
  let containsSpace := goContains rawValue (gs " ")
  let containsAtSymbol := goContains rawValue (gs "@")
  containsSpace || containsAtSymbol

/-- Embeds the `ssh.Option` family of the (absent) `internal/model/ssh`
package: each option carries one raw string value. -/
inductive SSHOption where
  | privateKey (value : GoString)
  | remotePort (value : GoString)
  | loginName (value : GoString)
  | address (value : GoString)
deriving DecidableEq

/-- Modelled from the spec: the `internal/model/ssh` option renderer is not in
the source tree. Per the spec, empty optional values are omitted entirely
(never emitted as blank flags), and the golden test
`address=10.0.0.5, port=22, login=root, identity=/k ↦ ssh -i /k -p 22
root@10.0.0.5` fixes the rendering: identity renders as `-i <v>`, port as
`-p <v>`, and a login name directly followed by an address renders as
`<login>@<address>`. A login name not followed by an address (the copy-id
variant) renders as the standard `-l <v>` flag. -/
def renderSSHOptions : List SSHOption → List GoString
  | SSHOption.loginName v :: SSHOption.address a :: rest =>
    (if v.isEmpty then a else v ++ ['@'] ++ a) :: renderSSHOptions rest
  | SSHOption.privateKey v :: rest =>
    (if v.isEmpty then [] else [gs "-i " ++ v]) ++ renderSSHOptions rest
  | SSHOption.remotePort v :: rest =>
    (if v.isEmpty then [] else [gs "-p " ++ v]) ++ renderSSHOptions rest
  | SSHOption.loginName v :: rest =>
    (if v.isEmpty then [] else [gs "-l " ++ v]) ++ renderSSHOptions rest
  | SSHOption.address v :: rest => v :: renderSSHOptions rest
  | [] => []

/-- Joins a base command with its rendered arguments, one space apart. -/
def joinArgs (cmd : GoString) (args : List GoString) : GoString :=
  args.foldl (fun acc a => acc ++ [' '] ++ a) cmd

/-- Modelled from the spec: `ssh.ConnectCommand` of the absent
`internal/model/ssh` package; `ssh` followed by the rendered options. -/
def connectCommand (opts : List SSHOption) : GoString :=
  joinArgs (gs "ssh") (renderSSHOptions opts)

/-- Modelled from the spec: `ssh.CopyIDCommand` of the absent
`internal/model/ssh` package; `ssh-copy-id` followed by the rendered
options. -/
def copyIDCommand (opts : List SSHOption) : GoString :=
  joinArgs (gs "ssh-copy-id") (renderSSHOptions opts)

/-- Embeds the `fmt.Sprintf` wrapper `sshpass -p '%s' %s` used by
`Host.CmdSSHConnect`: the password is embedded literally between single
quotes, with no further escaping. -/
def sshpassWrap (password cmd : GoString) : GoString :=
  gs "sshpass -p " ++ [squote] ++ password ++ [squote, ' '] ++ cmd

/-- Embeds `Host.CmdSSHConnect`. Note that the user-defined branch returns
early, before the password check. -/
def Host.cmdSSHConnect (h : Host) : GoString :=
  if h.isUserDefinedSSHCommand then
    connectCommand [SSHOption.address h.address]
  else
    let options := [SSHOption.privateKey h.identityFilePath,
      SSHOption.remotePort h.remotePort,
      SSHOption.loginName h.loginName,
      SSHOption.address h.address]
    if h.password ≠ [] then
      sshpassWrap h.password (connectCommand options)
    else
      connectCommand options

/-- Embeds `Host.CmdSSHCopyID`. The Go code dereferences
`h.SSHClientConfig` unconditionally; a `nil` pointer there is a runtime
panic, modelled as `none`. -/
def Host.cmdSSHCopyID (h : Host) : Option GoString :=
  match h.sshClientConfig with
  | none => none
  | some cfg =>
    some (copyIDCommand [SSHOption.loginName cfg.user,
      SSHOption.remotePort cfg.port,
      SSHOption.privateKey cfg.identityFile,
      SSHOption.address cfg.hostname])

/-- Embeds the bubbletea messages emitted by the edit form: `MsgClose`,
`message.HostListSelectItem`, `hostlist.MsgRefreshRepo` and
`message.RunProcessLoadSSHConfig`. -/
inductive Msg where
  | close
  | hostListSelectItem (hostID : Int)
  | refreshRepo
  | runProcessLoadSSHConfig (sshConfigHostname : GoString)
deriving DecidableEq

/-- Embeds the `debouncedMessage` envelope: a wrapped message plus the
debounce tag captured when it was created. -/
structure DebouncedMessage where
  wrappedMsg : Msg
  debounceTag : Int
deriving DecidableEq

/-- Modelled from the spec: the text-input widget
(`internal/ui/component/input`) is not in the source tree. Per the spec it
exposes a value, a label, a placeholder, a cursor, focus/blur, an
enabled flag and a pluggable validator returning pass/fail with a message
(`none` = pass). `err` stores the result of the last validation. -/
structure Input where
  label : GoString
  value : GoString
  placeholder : GoString
  cursor : Nat
  focused : Bool
  enabled : Bool
  validate : Option (GoString → Option GoString)
  err : Option GoString

/-- Modelled from the spec: `SetValue` on the widget validates the new value
first and rejects it (leaving the stored value unchanged) when the validator
fails, as described by the in-code comment in `copyInputValueFromTo`. -/
def Input.setValue (inp : Input) (v : GoString) : Input :=
  match inp.validate with
  | none => { inp with value := v }
  | some f =>
    match f v with
    | none => { inp with value := v }
    | some e => { inp with err := some e }

/-- Modelled from the spec: `SetCursor` on the widget stores the cursor
position. -/
def Input.setCursor (inp : Input) (n : Nat) : Input := { inp with cursor := n }

/-- Modelled from the spec: `SetEnabled` on the widget stores the enabled
flag. -/
def Input.setEnabled (inp : Input) (b : Bool) : Input := { inp with enabled := b }

/-- A zero-valued widget, used as the out-of-range default of `getInput`. -/
def emptyInput : Input :=
  { label := []
    value := []
    placeholder := []
    cursor := 0
    focused := false
    enabled := true
    validate := none
    err := none }

/-- Runs an input's validator against its current value, as done by the
guarded `if m.inputs[i].Validate != nil` blocks of the controller
(`none` when there is no validator or the validator passes). -/
def runValidate (inp : Input) : Option GoString :=
  match inp.validate with
  | some f => f inp.value
  | none => none

/-- Field ordinal `inputTitle` of the controller's input list. -/
def inputTitle : Nat := 0

/-- Field ordinal `inputAddress` of the controller's input list. -/
def inputAddress : Nat := 1

/-- Field ordinal `inputDescription` of the controller's input list. -/
def inputDescription : Nat := 2

/-- Field ordinal `inputLogin` of the controller's input list. -/
def inputLogin : Nat := 3

/-- Field ordinal `inputNetworkPort` of the controller's input list. -/
def inputNetworkPort : Nat := 4

/-- Field ordinal `inputIdentityFile` of the controller's input list. -/
def inputIdentityFile : Nat := 5

/-- Embeds the host record type used by `hostedit.go` (`model.Host` of this
source revision): the six attributes touched by the save switch plus the
storage-assigned ID. -/
structure EHost where
  id : Int
  title : GoString
  address : GoString
  description : GoString
  loginName : GoString
  remotePort : GoString
  privateKeyPath : GoString
deriving DecidableEq

/-- Embeds `getKeyMap`: the copy-value shortcut is enabled exactly when the
focused input is the title or the address. -/
def copyValueKeyEnabled (focusedInput : Nat) : Bool :=
  focusedInput == inputTitle || focusedInput == inputAddress

/-- Embeds `editModel`, the edit-form controller state used by the claims:
the ordered input list, the focus index, the host record being edited, the
debounce tag, the form title, the `isNewHost` flag recorded at construction
(`storage.Get` failed), the resolved default SSH parameters
(`appState.HostSSHConfig`), the keymap's copy-shortcut flag, and the storage
collaborator `Save`, modelled per the spec interface as a function returning
the saved record with its assigned ID together with an error that the
controller currently discards. -/
structure EditModel where
  focusedInput : Nat
  host : EHost
  hostSSHConfig : SSHConfig
  inputs : List Input
  isNewHost : Bool
  copyInputValueEnabled : Bool
  title : GoString
  debounceTag : Int
  storageSave : EHost → EHost × Option GoString

/-- Reads `m.inputs[i]` (in-range in all executions of the program). -/
def EditModel.getInput (m : EditModel) (i : Nat) : Input :=
  m.inputs.getD i emptyInput

/-- Embeds `editModel.isCustomConnectString`: identical predicate to
`Host.IsUserDefinedSSHCommand`, applied to the address input's value. -/
def EditModel.isCustomConnectString (m : EditModel) : Bool :=
  let rawValue := goTrimSpace (m.getInput inputAddress).value
  let containsSpace := goContains rawValue (gs " ")
  let containsAtSymbol := goContains rawValue (gs "@")
  containsSpace || containsAtSymbol

/-- Embeds `editModel.updateInputPlaceholders`: the login, network-port and
identity-file placeholders are recomputed from the resolved SSH defaults with
a `readonly: `/`default: ` marker chosen by the address-mode predicate. -/
def updateInputPlaceholders (m : EditModel) : EditModel :=
  let pfx := if m.isCustomConnectString then gs "readonly: " else gs "default: "
  let l1 := m.inputs.set inputLogin { m.getInput inputLogin with placeholder := pfx ++ m.hostSSHConfig.user }
  let l2 := l1.set inputNetworkPort { m.getInput inputNetworkPort with placeholder := pfx ++ m.hostSSHConfig.port }
  let l3 := l2.set inputIdentityFile { m.getInput inputIdentityFile with placeholder := pfx ++ m.hostSSHConfig.identityFile }
  { m with inputs := l3 }

/-- Embeds `editModel.updateInputTitles`: when the address is a custom
connect string the login, network-port and identity-file inputs get
`SetEnabled(shouldDisableSSHArguments)` where
`shouldDisableSSHArguments = !isCustomConnectString` (hence `false`);
when the address is not custom, nothing is changed. -/
def updateInputTitles (m : EditModel) : EditModel :=
  let shouldDisableSSHArguments := !m.isCustomConnectString
  if m.isCustomConnectString then
    let l1 := m.inputs.set inputLogin ((m.getInput inputLogin).setEnabled shouldDisableSSHArguments)
    let l2 := l1.set inputNetworkPort ((m.getInput inputNetworkPort).setEnabled shouldDisableSSHArguments)
    let l3 := l2.set inputIdentityFile ((m.getInput inputIdentityFile).setEnabled shouldDisableSSHArguments)
    { m with inputs := l3 }
  else
    m

/-- Embeds the `message.HostSSHConfigLoaded` arm of `editModel.Update`:
recompute placeholders, then enabled state (the viewport redraw is pure
rendering and not modelled). -/
def handleHostSSHConfigLoaded (m : EditModel) : EditModel :=
  updateInputTitles (updateInputPlaceholders m)

/-- Embeds `editModel.handleDebouncedMessage`: handling a `debouncedMessage`
increments the model's debounce tag and arms a timer that will later deliver
the envelope; the timer's payload is returned. -/
def handleDebouncedMessage (m : EditModel) (msg : DebouncedMessage) : EditModel × DebouncedMessage :=
  ({ m with debounceTag := m.debounceTag + 1 }, msg)

/-- Embeds the `tea.Tick` callback armed by `handleDebouncedMessage`: when the
timer fires, the envelope's tag is compared against the model's debounce tag
at firing time; the wrapped message is delivered only when the envelope was
the most recently scheduled one (`msg.debounceTag == m.debounceTag - 1`),
otherwise the callback yields `nil` (no message). -/
def debounceTimerFire (m : EditModel) (msg : DebouncedMessage) : Option Msg :=
  if msg.debounceTag = m.debounceTag - 1 then some msg.wrappedMsg else none

/-- One schedule call of the debounce protocol: the envelope captures the
model's current tag (as in `focusedInputProcessKeyEvent`) and is then
processed by `handleDebouncedMessage`, which increments the tag and arms the
timer. -/
def scheduleDebounced (m : EditModel) (wrapped : Msg) : EditModel × DebouncedMessage :=
  handleDebouncedMessage m { wrappedMsg := wrapped, debounceTag := m.debounceTag }

/-- A burst of schedule calls, one per listed message, each envelope being
processed before the next schedule call, all within the debounce window (no
timer fires in between). Returns the final model and the armed envelopes in
schedule order. -/
def scheduleBurst (m : EditModel) : List Msg → EditModel × List DebouncedMessage
  | [] => (m, [])
  | msg :: rest =>
    let p := scheduleDebounced m msg
    let q := scheduleBurst p.fst rest
    (q.fst, p.snd :: q.snd)

/-- Writes widget value number `i` into the corresponding host-record field,
following the `switch i` of `editModel.save`. -/
def setEHostField (h : EHost) (i : Nat) (v : GoString) : EHost :=
  match i with
  | 0 => { h with title := v }
  | 1 => { h with address := v }
  | 2 => { h with description := v }
  | 3 => { h with loginName := v }
  | 4 => { h with remotePort := v }
  | 5 => { h with privateKeyPath := v }
  | _ => h

/-- One successful iteration of the save loop: copy input `i` into the host
record. -/
def copyFieldToHost (m : EditModel) (i : Nat) : EditModel :=
  { m with host := setEHostField m.host i (m.getInput i).value }

/-- The body of `editModel.save`'s loop over the given field indices: each
field is validated first; on the first failure the field's error and the
form-level error title are set and no commands are returned — note the fields
already visited have been copied into the host record at that point. When
every field passes, the host record (now holding all widget values) is handed
to the storage collaborator, whose returned error is discarded, and the
three completion messages are emitted in order. -/
def saveFrom (m : EditModel) : List Nat → EditModel × List Msg
  | [] =>
    let saved := m.storageSave m.host
    (m, [Msg.close, Msg.hostListSelectItem saved.fst.id, Msg.refreshRepo])
  | i :: rest =>
    match runValidate (m.getInput i) with
    | some e =>
      ({ m with
          inputs := m.inputs.set i { m.getInput i with err := some e }
          title := (m.getInput i).label ++ gs " is not valid" }, [])
    | none => saveFrom (copyFieldToHost m i) rest

/-- Embeds `editModel.save`: the loop runs over all field indices in order. -/
def save (m : EditModel) : EditModel × List Msg :=
  saveFrom m (List.range m.inputs.length)

/-- Embeds `editModel.copyInputValueFromTo`: the destination's validator is
temporarily removed so the write cannot be rejected, the value and cursor are
set, the validator is restored and run once against the new value to refresh
the error state. (The source calls the restored validator unconditionally;
at both call sites the destination input has one.) -/
def copyInputValueFromTo (m : EditModel) (sourceInput destinationInput : Nat) : EditModel :=
  let newValue := (m.getInput sourceInput).value
  let validator := (m.getInput destinationInput).validate
  let d0 := { m.getInput destinationInput with validate := none }
  let d1 := d0.setValue newValue
  let d2 := d1.setCursor newValue.length
  let d3 := { d2 with validate := validator }
  let d4 := { d3 with err := match validator with
    | some f => f newValue
    | none => none }
  { m with inputs := m.inputs.set destinationInput d4 }

/-- Embeds `editModel.focusedInputProcessKeyEvent`. The keystroke's effect on
the focused widget is the external widget collaborator's `Update`, modelled
as an opaque transformation `applyKey`. Whether the new title must be
mirrored into the address is decided from the pre-edit values; the mirroring
itself happens after the focused input is updated. When the address input's
value changed, a debounced config-reload envelope tagged with the model's
current debounce tag is emitted. -/
def focusedInputProcessKeyEvent (m : EditModel) (applyKey : Input → Input) :
    EditModel × Option DebouncedMessage :=
  let previousValue := (m.getInput m.focusedInput).value
  let shouldUpdateTitle : Bool :=
    if m.focusedInput = inputTitle then
      let addressEqualsTitle := (m.getInput inputTitle).value == (m.getInput inputAddress).value
      m.isNewHost && addressEqualsTitle
    else false
  let m1 := { m with inputs := m.inputs.set m.focusedInput (applyKey (m.getInput m.focusedInput)) }
  let m2 := if shouldUpdateTitle then copyInputValueFromTo m1 inputTitle inputAddress else m1
  if m.focusedInput = inputAddress then
    let currentValue := (m2.getInput inputAddress).value
    if previousValue ≠ currentValue then
      (m2, some { wrappedMsg := Msg.runProcessLoadSSHConfig currentValue
                  debounceTag := m.debounceTag })
    else
      (m2, none)
  else
    (m2, none)

/-- The navigation keys understood by `inputFocusChange`. -/
inductive NavKey where
  | up
  | down
deriving DecidableEq

/-- The loop run by `inputFocusChange` after the focus index moved: every
input is revalidated against its current value, the newly focused input gets
focus and all others are blurred. `i` is the current loop index. -/
def refreshInputs (focused : Nat) : Nat → List Input → List Input
  | _, [] => []
  | i, inp :: rest =>
    let inp1 := match inp.validate with
      | some f => { inp with err := f inp.value }
      | none => inp
    let inp2 := if i = focused then { inp1 with focused := true } else { inp1 with focused := false }
    inp2 :: refreshInputs focused (i + 1) rest

/-- Embeds `editModel.inputFocusChange`: an up key moves focus one step
towards index 0, a down key one step towards the last index; at the
boundaries nothing happens (early return, before the revalidation loop).
After a move, every field is revalidated, focus flags are rewritten and the
keymap's copy-value shortcut is recomputed for the new focus. -/
def inputFocusChange (m : EditModel) (keyMsg : NavKey) : EditModel :=
  let minFocusIndex := 0
  let maxFocusIndex := m.inputs.length - 1
  if keyMsg = NavKey.up ∧ m.focusedInput > minFocusIndex then
    let m1 := { m with focusedInput := m.focusedInput - 1 }
    { m1 with inputs := refreshInputs m1.focusedInput 0 m1.inputs
              copyInputValueEnabled := copyValueKeyEnabled m1.focusedInput }
  else if keyMsg = NavKey.down ∧ m.focusedInput < maxFocusIndex then
    let m1 := { m with focusedInput := m.focusedInput + 1 }
    { m1 with inputs := refreshInputs m1.focusedInput 0 m1.inputs
              copyInputValueEnabled := copyValueKeyEnabled m1.focusedInput }
  else
    m

theorem gs_space_eq : gs " " = [' '] := rfl

theorem gs_at_eq : gs "@" = ['@'] := rfl

/-- Searching for the empty substring always succeeds at the head. -/
theorem goStartsWith_nil (s : GoString) : goStartsWith s [] = true := by
  cases s <;> rfl

/-- A one-character substring occurs in `t` exactly when the character is an
element of `t`. -/
theorem goContains_singleton (t : GoString) (c : Char) :
    goContains t [c] = true ↔ c ∈ t := by
  induction t with
  | nil => simp [goContains]
  | cons d rest ih =>
    simp only [goContains, goStartsWith, goStartsWith_nil, Bool.and_true,
      Bool.or_eq_true, beq_iff_eq, List.mem_cons, ih]
    constructor
    · rintro (h | h)
      · exact Or.inl h.symm
      · exact Or.inr h
    · rintro (h | h)
      · exact Or.inl h.symm
      · exact Or.inr h

/-- C10: `Host.Clone` returns a record whose Title, Description, Address,
LoginName, IdentityFilePath, RemotePort and Password equal those of the
receiver, while ID is reset to zero and the resolved SSH-config pointer is
nil. As a pure function of its argument it cannot mutate the receiver. -/
theorem clone_copies_fields_resets_identity (h : Host) :
    h.clone.title = h.title ∧ h.clone.description = h.description ∧
    h.clone.address = h.address ∧ h.clone.loginName = h.loginName ∧
    h.clone.identityFilePath = h.identityFilePath ∧
    h.clone.remotePort = h.remotePort ∧ h.clone.password = h.password ∧
    h.clone.id = 0 ∧ h.clone.sshClientConfig = none :=
  ⟨rfl, rfl, rfl, rfl, rfl, rfl, rfl, rfl, rfl⟩

/-- C9: `Host.CmdSSHCopyID` unconditionally dereferences the resolved
SSH-config pointer: with a nil snapshot it faults (modelled as `none`), and
with a snapshot present it builds the copy-id command from the snapshot's
fields. -/
theorem cmdSSHCopyID_requires_config (h : Host) :
    (h.sshClientConfig = none → h.cmdSSHCopyID = none) ∧
    (∀ cfg, h.sshClientConfig = some cfg →
      h.cmdSSHCopyID = some (copyIDCommand [SSHOption.loginName cfg.user,
        SSHOption.remotePort cfg.port, SSHOption.privateKey cfg.identityFile,
        SSHOption.address cfg.hostname])) := by
  constructor
  · intro hn
    unfold Host.cmdSSHCopyID
    rw [hn]
  · intro cfg hc
    unfold Host.cmdSSHCopyID
    rw [hc]

/-- A host whose resolved SSH-config pointer is nil. -/
def hostNoConfig : Host :=
  { id := 1
    title := gs "box"
    description := []
    address := gs "box.example"
    remotePort := []
    loginName := []
    identityFilePath := []
    password := []
    sshClientConfig := none }

theorem cmdSSHCopyID_requires_config_witness :
    hostNoConfig.sshClientConfig = none ∧ hostNoConfig.cmdSSHCopyID = none :=
  ⟨rfl, (cmdSSHCopyID_requires_config hostNoConfig).1 rfl⟩

/-- C5: the address-mode detector returns user-defined exactly when the
trimmed address contains a space or an `@`, and the host-model predicate
`IsUserDefinedSSHCommand` and the form-controller predicate
`isCustomConnectString` compute the same function of the address text. -/
theorem address_mode_detector (s : GoString) (h : Host) (m : EditModel)
    (hh : h.address = s) (hm : (m.getInput inputAddress).value = s) :
    (h.isUserDefinedSSHCommand = true ↔
      (' ' ∈ goTrimSpace s ∨ '@' ∈ goTrimSpace s)) ∧
    h.isUserDefinedSSHCommand = m.isCustomConnectString := by
  subst hh
  constructor
  · unfold Host.isUserDefinedSSHCommand
    rw [gs_space_eq, gs_at_eq]
    simp [goContains_singleton]
  · unfold Host.isUserDefinedSSHCommand EditModel.isCustomConnectString
    rw [hm]

/-- A sample host record with a user-defined address, used by concrete
instantiations. -/
def sampleUserDefinedHost : Host :=
  { id := 2
    title := gs "prod"
    description := []
    address := gs "root@10.0.0.5"
    remotePort := []
    loginName := []
    identityFilePath := []
    password := gs "pw"
    sshClientConfig := none }

/-- A storage collaborator stub that assigns ID 7 and reports no error. -/
def sampleStorage : EHost → EHost × Option GoString :=
  fun h => ({ h with id := 7 }, none)

/-- Builds a widget in a given state, defaults as after construction. -/
def mkInput (label value : GoString) (validator : Option (GoString → Option GoString)) : Input :=
  { label := label
    value := value
    placeholder := []
    cursor := 0
    focused := false
    enabled := true
    validate := validator
    err := none }

/-- Embeds `notEmptyValidator` (its `utils.StringEmpty` helper is absent from
the source tree; modelled from the spec requirement that the field be
non-empty, with surrounding white space not counting as content). -/
def notEmptyValidator (s : GoString) : Option GoString :=
  if (goTrimSpace s).isEmpty then some (gs "value is required") else none

/-- A form state used to instantiate the detector-agreement theorem: the
address input holds the same user-defined address as
`sampleUserDefinedHost`. -/
def sampleDetectorModel : EditModel :=
  { focusedInput := 0
    host := { id := 2, title := [], address := [], description := [], loginName := [], remotePort := [], privateKeyPath := [] }
    hostSSHConfig := { hostname := [], identityFile := [], port := [], user := [] }
    inputs := [mkInput (gs "Title") (gs "prod") (some notEmptyValidator),
      mkInput (gs "Host") (gs "root@10.0.0.5") (some notEmptyValidator),
      mkInput (gs "Description") [] none,
      mkInput (gs "Login") [] none,
      mkInput (gs "Network port") [] none,
      mkInput (gs "Identity file") [] none]
    isNewHost := false
    copyInputValueEnabled := true
    title := gs "host details"
    debounceTag := 0
    storageSave := sampleStorage }

theorem address_mode_detector_witness :
    sampleUserDefinedHost.address = gs "root@10.0.0.5" ∧
    (sampleDetectorModel.getInput inputAddress).value = gs "root@10.0.0.5" ∧
    ((sampleUserDefinedHost.isUserDefinedSSHCommand = true ↔
      (' ' ∈ goTrimSpace (gs "root@10.0.0.5") ∨ '@' ∈ goTrimSpace (gs "root@10.0.0.5"))) ∧
    sampleUserDefinedHost.isUserDefinedSSHCommand = sampleDetectorModel.isCustomConnectString) :=
  ⟨rfl, by decide,
    address_mode_detector (gs "root@10.0.0.5") sampleUserDefinedHost sampleDetectorModel rfl (by decide)⟩

/-- C2 counterexample: a host with a non-empty password and a user-defined
address. `CmdSSHConnect` returns early in the user-defined branch, before the
password check, so the produced command is the bare pass-through `ssh`
invocation and is not wrapped with the sshpass helper. -/
theorem cmdSSHConnect_no_wrap_counterexample :
    sampleUserDefinedHost.password ≠ [] ∧
    sampleUserDefinedHost.cmdSSHConnect = gs "ssh root@10.0.0.5" ∧
    (sampleUserDefinedHost.cmdSSHConnect).take 8 ≠ gs "sshpass " := by
  refine ⟨?_, ?_, ?_⟩ <;> decide

/-- C2 amended: when the password is non-empty, the connect command is
wrapped with the sshpass helper (the password literally between single
quotes) only in the structured-address branch; a user-defined address yields
the raw pass-through command with no wrapper. -/
theorem cmdSSHConnect_password_wrap (h : Host) (hp : h.password ≠ []) :
    h.cmdSSHConnect =
      if h.isUserDefinedSSHCommand then
        connectCommand [SSHOption.address h.address]
      else
        sshpassWrap h.password (connectCommand [SSHOption.privateKey h.identityFilePath,
          SSHOption.remotePort h.remotePort, SSHOption.loginName h.loginName,
          SSHOption.address h.address]) := by
  unfold Host.cmdSSHConnect
  cases hb : h.isUserDefinedSSHCommand
  · simp [hb, hp]
  · simp [hb]

/-- A structured-address host with a password, instantiating the
wrap theorem. -/
def samplePasswordHost : Host :=
  { id := 3
    title := gs "db"
    description := []
    address := gs "10.0.0.5"
    remotePort := gs "22"
    loginName := gs "root"
    identityFilePath := gs "/k"
    password := gs "x"
    sshClientConfig := none }

theorem cmdSSHConnect_password_wrap_witness :
    samplePasswordHost.password ≠ [] ∧
    samplePasswordHost.cmdSSHConnect =
      (if samplePasswordHost.isUserDefinedSSHCommand then
        connectCommand [SSHOption.address samplePasswordHost.address]
      else
        sshpassWrap samplePasswordHost.password
          (connectCommand [SSHOption.privateKey samplePasswordHost.identityFilePath,
            SSHOption.remotePort samplePasswordHost.remotePort,
            SSHOption.loginName samplePasswordHost.loginName,
            SSHOption.address samplePasswordHost.address])) :=
  ⟨by decide, cmdSSHConnect_password_wrap samplePasswordHost (by decide)⟩

/-- After a burst of schedule calls, the model's debounce tag has advanced by
the number of calls. -/
theorem scheduleBurst_tag (msgs : List Msg) (m : EditModel) :
    (scheduleBurst m msgs).fst.debounceTag = m.debounceTag + msgs.length := by
  induction msgs generalizing m with
  | nil => simp [scheduleBurst]
  | cons msg rest ih =>
    simp [scheduleBurst, scheduleDebounced, handleDebouncedMessage, ih]
    omega

/-- Firing every envelope of a burst, in schedule order, against the
post-burst model delivers exactly the last scheduled message. -/
theorem scheduleBurst_filterMap (msgs : List Msg) (m : EditModel) (h : msgs ≠ []) :
    (scheduleBurst m msgs).snd.filterMap (debounceTimerFire (scheduleBurst m msgs).fst) =
      [msgs.getLast h] := by
  induction msgs generalizing m with
  | nil => exact absurd rfl h
  | cons msg rest ih =>
    cases rest with
    | nil => simp [scheduleBurst, scheduleDebounced, handleDebouncedMessage, debounceTimerFire]
    | cons r rest' =>
      have hne : r :: rest' ≠ [] := by simp
      have key : scheduleBurst m (msg :: r :: rest') =
          ((scheduleBurst { m with debounceTag := m.debounceTag + 1 } (r :: rest')).fst,
           { wrappedMsg := msg, debounceTag := m.debounceTag } ::
             (scheduleBurst { m with debounceTag := m.debounceTag + 1 } (r :: rest')).snd) := rfl
      have hfire : debounceTimerFire
          (scheduleBurst { m with debounceTag := m.debounceTag + 1 } (r :: rest')).fst
          { wrappedMsg := msg, debounceTag := m.debounceTag } = none := by
        unfold debounceTimerFire
        rw [scheduleBurst_tag]
        exact if_neg (by simp; omega)
      rw [key]
      dsimp only
      rw [List.filterMap_cons, hfire, ih { m with debounceTag := m.debounceTag + 1 } hne]
      simp [List.getLast_cons hne]

/-- C4: for every burst of schedule calls to the debounce scheduler whose
envelopes are processed within the debounce window, and for every order in
which the armed timers subsequently fire, exactly the message of the last
schedule call is delivered; all earlier ones are dropped (their callbacks
yield no message). -/
theorem debounce_last_message_wins (m : EditModel) (msgs : List Msg) (h : msgs ≠ [])
    (fireOrder : List DebouncedMessage)
    (hperm : fireOrder.Perm (scheduleBurst m msgs).snd) :
    fireOrder.filterMap (debounceTimerFire (scheduleBurst m msgs).fst) = [msgs.getLast h] := by
  have hfm := scheduleBurst_filterMap msgs m h
  have hp := hperm.filterMap (debounceTimerFire (scheduleBurst m msgs).fst)
  rw [hfm] at hp
  exact List.perm_singleton.mp hp

theorem debounce_last_message_wins_witness :
    ([Msg.runProcessLoadSSHConfig (gs "a"), Msg.runProcessLoadSSHConfig (gs "ab")] : List Msg) ≠ [] ∧
    ([⟨Msg.runProcessLoadSSHConfig (gs "ab"), 1⟩,
      ⟨Msg.runProcessLoadSSHConfig (gs "a"), 0⟩] : List DebouncedMessage).Perm
      (scheduleBurst sampleDetectorModel
        [Msg.runProcessLoadSSHConfig (gs "a"), Msg.runProcessLoadSSHConfig (gs "ab")]).snd ∧
    List.filterMap
      (debounceTimerFire (scheduleBurst sampleDetectorModel
        [Msg.runProcessLoadSSHConfig (gs "a"), Msg.runProcessLoadSSHConfig (gs "ab")]).fst)
      [⟨Msg.runProcessLoadSSHConfig (gs "ab"), 1⟩, ⟨Msg.runProcessLoadSSHConfig (gs "a"), 0⟩] =
      [Msg.runProcessLoadSSHConfig (gs "ab")] :=
  ⟨by decide, by decide,
    debounce_last_message_wins sampleDetectorModel
      [Msg.runProcessLoadSSHConfig (gs "a"), Msg.runProcessLoadSSHConfig (gs "ab")] (by decide)
      [⟨Msg.runProcessLoadSSHConfig (gs "ab"), 1⟩, ⟨Msg.runProcessLoadSSHConfig (gs "a"), 0⟩]
      (by decide)⟩

/-- The revalidation loop does not change the number of inputs. -/
theorem refreshInputs_length (focused : Nat) (l : List Input) (i : Nat) :
    (refreshInputs focused i l).length = l.length := by
  induction l generalizing i with
  | nil => rfl
  | cons inp rest ih => simp [refreshInputs, ih]

/-- Navigation does not change the number of inputs. -/
theorem inputFocusChange_length (m : EditModel) (k : NavKey) :
    (inputFocusChange m k).inputs.length = m.inputs.length := by
  unfold inputFocusChange
  dsimp only
  split_ifs <;> simp [refreshInputs_length]

/-- One navigation step preserves the focus-in-range invariant. -/
theorem inputFocusChange_focus_lt (m : EditModel) (k : NavKey)
    (h : m.focusedInput < m.inputs.length) :
    (inputFocusChange m k).focusedInput < (inputFocusChange m k).inputs.length := by
  rw [inputFocusChange_length]
  unfold inputFocusChange
  dsimp only
  split_ifs with h1 h2
  · have h3 := h1.2
    dsimp only
    omega
  · have h3 := h2.2
    dsimp only
    omega
  · exact h

/-- C7: for every sequence of navigation keys starting from an in-range focus
index, the focus index stays in range; an up key at index 0 and a down key at
the last index leave the focus unchanged, and every other navigation moves it
by exactly one. -/
theorem focus_navigation_bounds (m : EditModel) (h : m.focusedInput < m.inputs.length)
    (keys : List NavKey) :
    ((keys.foldl inputFocusChange m).focusedInput <
      (keys.foldl inputFocusChange m).inputs.length) ∧
    (m.focusedInput = 0 → (inputFocusChange m NavKey.up).focusedInput = m.focusedInput) ∧
    (m.focusedInput = m.inputs.length - 1 →
      (inputFocusChange m NavKey.down).focusedInput = m.focusedInput) ∧
    (0 < m.focusedInput →
      (inputFocusChange m NavKey.up).focusedInput = m.focusedInput - 1) ∧
    (m.focusedInput < m.inputs.length - 1 →
      (inputFocusChange m NavKey.down).focusedInput = m.focusedInput + 1) := by
  refine ⟨?_, ?_, ?_, ?_, ?_⟩
  · induction keys generalizing m with
    | nil => exact h
    | cons k rest ih => exact ih _ (inputFocusChange_focus_lt m k h)
  · intro h0
    simp [inputFocusChange, h0]
  · intro hmax
    simp [inputFocusChange, hmax]
  · intro hpos
    simp [inputFocusChange, hpos]
  · intro hlt
    simp [inputFocusChange, hlt]

theorem focus_navigation_bounds_witness :
    sampleDetectorModel.focusedInput < sampleDetectorModel.inputs.length ∧
    (([NavKey.down, NavKey.down, NavKey.up].foldl inputFocusChange sampleDetectorModel).focusedInput <
      ([NavKey.down, NavKey.down, NavKey.up].foldl inputFocusChange sampleDetectorModel).inputs.length) :=
  ⟨by decide,
    (focus_navigation_bounds sampleDetectorModel (by decide) [NavKey.down, NavKey.down, NavKey.up]).1⟩

/-- A list of length six is exactly a six-element list. -/
theorem exists_six_of_length {α : Type} (l : List α) (h : l.length = 6) :
    ∃ a b c d e f, l = [a, b, c, d, e, f] := by
  rcases l with _ | ⟨a, _ | ⟨b, _ | ⟨c, _ | ⟨d, _ | ⟨e, _ | ⟨f, _ | ⟨g, t⟩⟩⟩⟩⟩⟩⟩ <;> simp_all

/-- A form state whose address input holds a structured (not user-defined)
address while the login, network-port and identity-file inputs are disabled,
as left behind by an earlier custom address. -/
def sampleStructuredDisabledModel : EditModel :=
  { focusedInput := 1
    host := { id := 4, title := gs "box", address := gs "box", description := [], loginName := [], remotePort := [], privateKeyPath := [] }
    hostSSHConfig := { hostname := gs "box", identityFile := gs "/id", port := gs "22", user := gs "u" }
    inputs := [mkInput (gs "Title") (gs "box") (some notEmptyValidator),
      mkInput (gs "Host") (gs "box") (some notEmptyValidator),
      mkInput (gs "Description") [] none,
      { mkInput (gs "Login") [] none with enabled := false },
      { mkInput (gs "Network port") [] none with enabled := false },
      { mkInput (gs "Identity file") [] none with enabled := false }]
    isNewHost := false
    copyInputValueEnabled := true
    title := gs "host details"
    debounceTag := 0
    storageSave := sampleStorage }

/-- C3 counterexample: a form state with a structured address and a disabled
login field. Handling the config-loaded notification leaves the login field
disabled, while the claim requires it to be enabled whenever the address is
structured, regardless of prior state. -/
theorem configLoaded_enabled_counterexample :
    sampleStructuredDisabledModel.isCustomConnectString = false ∧
    ((handleHostSSHConfigLoaded sampleStructuredDisabledModel).getInput inputLogin).enabled = false :=
  ⟨by decide, by decide⟩

/-- C3 amended: after a config-loaded notification is handled, the login,
network-port and identity-file fields are disabled when the address text is
user-defined; when the address is structured their enabled state is left
unchanged (the handler only ever disables, it never re-enables). -/
theorem configLoaded_enabled_amended (m : EditModel) (hlen : m.inputs.length = 6) :
    ((handleHostSSHConfigLoaded m).getInput inputLogin).enabled =
      (if m.isCustomConnectString then false else (m.getInput inputLogin).enabled) ∧
    ((handleHostSSHConfigLoaded m).getInput inputNetworkPort).enabled =
      (if m.isCustomConnectString then false else (m.getInput inputNetworkPort).enabled) ∧
    ((handleHostSSHConfigLoaded m).getInput inputIdentityFile).enabled =
      (if m.isCustomConnectString then false else (m.getInput inputIdentityFile).enabled) := by
  obtain ⟨a, b, c, d, e, f, hm⟩ := exists_six_of_length m.inputs hlen
  simp only [handleHostSSHConfigLoaded, updateInputPlaceholders, updateInputTitles,
    EditModel.isCustomConnectString, EditModel.getInput, Input.setEnabled, hm]
  cases hE : goContains (goTrimSpace b.value) (gs " ") || goContains (goTrimSpace b.value) (gs "@")
  · simp [inputLogin, inputNetworkPort, inputIdentityFile, inputAddress, hE]
  · simp [inputLogin, inputNetworkPort, inputIdentityFile, inputAddress, hE]

theorem configLoaded_enabled_amended_witness :
    sampleStructuredDisabledModel.inputs.length = 6 ∧
    (((handleHostSSHConfigLoaded sampleStructuredDisabledModel).getInput inputLogin).enabled =
      (if sampleStructuredDisabledModel.isCustomConnectString then false
        else (sampleStructuredDisabledModel.getInput inputLogin).enabled) ∧
    ((handleHostSSHConfigLoaded sampleStructuredDisabledModel).getInput inputNetworkPort).enabled =
      (if sampleStructuredDisabledModel.isCustomConnectString then false
        else (sampleStructuredDisabledModel.getInput inputNetworkPort).enabled) ∧
    ((handleHostSSHConfigLoaded sampleStructuredDisabledModel).getInput inputIdentityFile).enabled =
      (if sampleStructuredDisabledModel.isCustomConnectString then false
        else (sampleStructuredDisabledModel.getInput inputIdentityFile).enabled)) :=
  ⟨by decide, configLoaded_enabled_amended sampleStructuredDisabledModel (by decide)⟩

/-- C6: for a keystroke handled while the title field is focused, if the
record is new and the pre-keystroke title equals the pre-keystroke address,
the title's post-keystroke value is copied into the address field; if the
pre-keystroke values differ, the address input is left entirely unchanged. -/
theorem title_keystroke_mirroring (m : EditModel) (applyKey : Input → Input)
    (hf : m.focusedInput = inputTitle) (hlen : m.inputs.length = 6) :
    (m.isNewHost = true → (m.getInput inputTitle).value = (m.getInput inputAddress).value →
      ((focusedInputProcessKeyEvent m applyKey).fst.getInput inputAddress).value =
        (applyKey (m.getInput inputTitle)).value) ∧
    ((m.getInput inputTitle).value ≠ (m.getInput inputAddress).value →
      (focusedInputProcessKeyEvent m applyKey).fst.getInput inputAddress =
        m.getInput inputAddress) := by
  obtain ⟨a, b, c, d, e, f, hm⟩ := exists_six_of_length m.inputs hlen
  constructor
  · intro hnew heq
    simp [EditModel.getInput, hm, inputTitle, inputAddress, List.getD] at heq
    simp [focusedInputProcessKeyEvent, copyInputValueFromTo, Input.setValue, Input.setCursor,
      EditModel.getInput, hf, hm, hnew, heq, inputTitle, inputAddress]
  · intro hne
    simp [EditModel.getInput, hm, inputTitle, inputAddress, List.getD] at hne
    simp [focusedInputProcessKeyEvent, EditModel.getInput, hf, hm, hne, inputTitle, inputAddress]

/-- The keystroke used by the concrete instantiation: append a `c` to the
focused widget's value. -/
def sampleKey : Input → Input := fun inp => { inp with value := inp.value ++ gs "c" }

/-- A freshly constructed new-host form whose title and address inputs hold
the same text. -/
def sampleNewHostModel : EditModel :=
  { focusedInput := 0
    host := { id := 0, title := [], address := [], description := [], loginName := [], remotePort := [], privateKeyPath := [] }
    hostSSHConfig := { hostname := [], identityFile := [], port := [], user := [] }
    inputs := [mkInput (gs "Title") (gs "ab") (some notEmptyValidator),
      mkInput (gs "Host") (gs "ab") (some notEmptyValidator),
      mkInput (gs "Description") [] none,
      mkInput (gs "Login") [] none,
      mkInput (gs "Network port") [] none,
      mkInput (gs "Identity file") [] none]
    isNewHost := true
    copyInputValueEnabled := true
    title := gs "host details"
    debounceTag := 0
    storageSave := sampleStorage }

theorem title_keystroke_mirroring_witness :
    sampleNewHostModel.focusedInput = inputTitle ∧
    sampleNewHostModel.inputs.length = 6 ∧
    sampleNewHostModel.isNewHost = true ∧
    (sampleNewHostModel.getInput inputTitle).value = (sampleNewHostModel.getInput inputAddress).value ∧
    ((focusedInputProcessKeyEvent sampleNewHostModel sampleKey).fst.getInput inputAddress).value =
      (sampleKey (sampleNewHostModel.getInput inputTitle)).value :=
  ⟨rfl, by decide, rfl, by decide,
    (title_keystroke_mirroring sampleNewHostModel sampleKey rfl (by decide)).1 rfl (by decide)⟩

@[simp] theorem getInput_copyFieldToHost (m : EditModel) (i j : Nat) :
    (copyFieldToHost m i).getInput j = m.getInput j := rfl

@[simp] theorem inputs_copyFieldToHost (m : EditModel) (i : Nat) :
    (copyFieldToHost m i).inputs = m.inputs := rfl

@[simp] theorem host_copyFieldToHost (m : EditModel) (i : Nat) :
    (copyFieldToHost m i).host = setEHostField m.host i (m.getInput i).value := rfl

@[simp] theorem storageSave_copyFieldToHost (m : EditModel) (i : Nat) :
    (copyFieldToHost m i).storageSave = m.storageSave := rfl

@[simp] theorem title_copyFieldToHost (m : EditModel) (i : Nat) :
    (copyFieldToHost m i).title = m.title := rfl

/-- C8: when every field validator passes, save copies all six field values
into the host record, hands that record to the storage collaborator, and
returns the three completion messages in strict order: close-form, then
select-the-saved-record carrying the storage-assigned ID, then
refresh-the-list. -/
theorem save_success_messages (m : EditModel) (hlen : m.inputs.length = 6)
    (hpass : ∀ j, j < 6 → runValidate (m.getInput j) = none) :
    (save m).fst.host =
      { m.host with
          title := (m.getInput inputTitle).value
          address := (m.getInput inputAddress).value
          description := (m.getInput inputDescription).value
          loginName := (m.getInput inputLogin).value
          remotePort := (m.getInput inputNetworkPort).value
          privateKeyPath := (m.getInput inputIdentityFile).value } ∧
    (save m).snd =
      [Msg.close,
       Msg.hostListSelectItem (m.storageSave (save m).fst.host).fst.id,
       Msg.refreshRepo] := by
  have h0 := hpass 0 (by omega)
  have h1 := hpass 1 (by omega)
  have h2 := hpass 2 (by omega)
  have h3 := hpass 3 (by omega)
  have h4 := hpass 4 (by omega)
  have h5 := hpass 5 (by omega)
  unfold save
  rw [hlen, show List.range 6 = [0, 1, 2, 3, 4, 5] from by decide]
  simp only [saveFrom, h0, h1, h2, h3, h4, h5, getInput_copyFieldToHost,
    inputs_copyFieldToHost, host_copyFieldToHost, storageSave_copyFieldToHost,
    title_copyFieldToHost]
  exact ⟨rfl, trivial⟩

/-- A form state in which every validator passes. -/
def sampleValidModel : EditModel :=
  { focusedInput := 0
    host := { id := 5, title := gs "old", address := gs "oldaddr", description := [], loginName := [], remotePort := [], privateKeyPath := [] }
    hostSSHConfig := { hostname := [], identityFile := [], port := [], user := [] }
    inputs := [mkInput (gs "Title") (gs "T") (some notEmptyValidator),
      mkInput (gs "Host") (gs "A") (some notEmptyValidator),
      mkInput (gs "Description") (gs "d") none,
      mkInput (gs "Login") (gs "u") none,
      mkInput (gs "Network port") (gs "22") none,
      mkInput (gs "Identity file") (gs "/k") none]
    isNewHost := false
    copyInputValueEnabled := true
    title := gs "host details"
    debounceTag := 0
    storageSave := sampleStorage }

theorem save_success_messages_witness :
    sampleValidModel.inputs.length = 6 ∧
    (∀ j, j < 6 → runValidate (sampleValidModel.getInput j) = none) ∧
    (save sampleValidModel).snd =
      [Msg.close, Msg.hostListSelectItem 7, Msg.refreshRepo] :=
  ⟨by decide, by decide,
    (save_success_messages sampleValidModel (by decide) (by decide)).2⟩

/-- A form state whose title widget holds text that differs from the stored
record's title while the address widget is empty, so the address validator is
the first to fail. -/
def sampleFailModel : EditModel :=
  { focusedInput := 0
    host := { id := 5, title := gs "old", address := gs "oldaddr", description := [], loginName := [], remotePort := [], privateKeyPath := [] }
    hostSSHConfig := { hostname := [], identityFile := [], port := [], user := [] }
    inputs := [mkInput (gs "Title") (gs "T") (some notEmptyValidator),
      mkInput (gs "Host") [] (some notEmptyValidator),
      mkInput (gs "Description") [] none,
      mkInput (gs "Login") [] none,
      mkInput (gs "Network port") [] none,
      mkInput (gs "Identity file") [] none]
    isNewHost := false
    copyInputValueEnabled := true
    title := gs "host details"
    debounceTag := 0
    storageSave := sampleStorage }

/-- C1 counterexample: the address validator rejects its value, save returns
no commands, and yet the in-memory host record has been mutated: its title
now holds the widget text, not its pre-save value. -/
theorem save_mutates_on_failure_counterexample :
    runValidate (sampleFailModel.getInput inputAddress) = some (gs "value is required") ∧
    (save sampleFailModel).snd = [] ∧
    (save sampleFailModel).fst.host.title ≠ sampleFailModel.host.title :=
  ⟨by decide, by decide, by decide⟩

/-- C1 amended: when the validators of all fields before index `i` pass and
field `i`'s validator rejects its value, save sets the form title to an error
naming field `i`'s label, records the error on that field, and returns no
commands; the host-record fields at the failing index and beyond keep their
pre-save values, but the fields before the failing index have already been
overwritten with their widget values (the loop copies as it validates). -/
theorem save_validation_failure (m : EditModel) (i : Nat) (e : GoString)
    (hlen : m.inputs.length = 6) (hi : i < 6)
    (hpass : ∀ j, j < i → runValidate (m.getInput j) = none)
    (hfail : runValidate (m.getInput i) = some e) :
    (save m).snd = [] ∧
    (save m).fst.title = (m.getInput i).label ++ gs " is not valid" ∧
    ((save m).fst.getInput i).err = some e ∧
    (i ≤ inputTitle → (save m).fst.host.title = m.host.title) ∧
    (i ≤ inputAddress → (save m).fst.host.address = m.host.address) ∧
    (i ≤ inputDescription → (save m).fst.host.description = m.host.description) ∧
    (i ≤ inputLogin → (save m).fst.host.loginName = m.host.loginName) ∧
    (i ≤ inputNetworkPort → (save m).fst.host.remotePort = m.host.remotePort) ∧
    (i ≤ inputIdentityFile → (save m).fst.host.privateKeyPath = m.host.privateKeyPath) := by
  obtain ⟨w0, w1, w2, w3, w4, w5, hm⟩ := exists_six_of_length m.inputs hlen
  interval_cases i
  · have hf : runValidate w0 = some e := by simpa [EditModel.getInput, hm] using hfail
    unfold save
    rw [hlen, show List.range 6 = [0, 1, 2, 3, 4, 5] from by decide]
    simp [saveFrom, EditModel.getInput, setEHostField, hm, hf,
      inputTitle, inputAddress, inputDescription, inputLogin, inputNetworkPort, inputIdentityFile]
  · have hf : runValidate w1 = some e := by simpa [EditModel.getInput, hm] using hfail
    have h0 : runValidate w0 = none := by
      simpa [EditModel.getInput, hm] using hpass 0 (by omega)
    unfold save
    rw [hlen, show List.range 6 = [0, 1, 2, 3, 4, 5] from by decide]
    simp [saveFrom, EditModel.getInput, setEHostField, hm, hf, h0,
      inputTitle, inputAddress, inputDescription, inputLogin, inputNetworkPort, inputIdentityFile]
  · have hf : runValidate w2 = some e := by simpa [EditModel.getInput, hm] using hfail
    have h0 : runValidate w0 = none := by
      simpa [EditModel.getInput, hm] using hpass 0 (by omega)
    have h1 : runValidate w1 = none := by
      simpa [EditModel.getInput, hm] using hpass 1 (by omega)
    unfold save
    rw [hlen, show List.range 6 = [0, 1, 2, 3, 4, 5] from by decide]
    simp [saveFrom, EditModel.getInput, setEHostField, hm, hf, h0, h1,
      inputTitle, inputAddress, inputDescription, inputLogin, inputNetworkPort, inputIdentityFile]
  · have hf : runValidate w3 = some e := by simpa [EditModel.getInput, hm] using hfail
    have h0 : runValidate w0 = none := by
      simpa [EditModel.getInput, hm] using hpass 0 (by omega)
    have h1 : runValidate w1 = none := by
      simpa [EditModel.getInput, hm] using hpass 1 (by omega)
    have h2 : runValidate w2 = none := by
      simpa [EditModel.getInput, hm] using hpass 2 (by omega)
    unfold save
    rw [hlen, show List.range 6 = [0, 1, 2, 3, 4, 5] from by decide]
    simp [saveFrom, EditModel.getInput, setEHostField, hm, hf, h0, h1, h2,
      inputTitle, inputAddress, inputDescription, inputLogin, inputNetworkPort, inputIdentityFile]
  · have hf : runValidate w4 = some e := by simpa [EditModel.getInput, hm] using hfail
    have h0 : runValidate w0 = none := by
      simpa [EditModel.getInput, hm] using hpass 0 (by omega)
    have h1 : runValidate w1 = none := by
      simpa [EditModel.getInput, hm] using hpass 1 (by omega)
    have h2 : runValidate w2 = none := by
      simpa [EditModel.getInput, hm] using hpass 2 (by omega)
    have h3 : runValidate w3 = none := by
      simpa [EditModel.getInput, hm] using hpass 3 (by omega)
    unfold save
    rw [hlen, show List.range 6 = [0, 1, 2, 3, 4, 5] from by decide]
    simp [saveFrom, EditModel.getInput, setEHostField, hm, hf, h0, h1, h2, h3,
      inputTitle, inputAddress, inputDescription, inputLogin, inputNetworkPort, inputIdentityFile]
  · have hf : runValidate w5 = some e := by simpa [EditModel.getInput, hm] using hfail
    have h0 : runValidate w0 = none := by
      simpa [EditModel.getInput, hm] using hpass 0 (by omega)
    have h1 : runValidate w1 = none := by
      simpa [EditModel.getInput, hm] using hpass 1 (by omega)
    have h2 : runValidate w2 = none := by
      simpa [EditModel.getInput, hm] using hpass 2 (by omega)
    have h3 : runValidate w3 = none := by
      simpa [EditModel.getInput, hm] using hpass 3 (by omega)
    have h4 : runValidate w4 = none := by
      simpa [EditModel.getInput, hm] using hpass 4 (by omega)
    unfold save
    rw [hlen, show List.range 6 = [0, 1, 2, 3, 4, 5] from by decide]
    simp [saveFrom, EditModel.getInput, setEHostField, hm, hf, h0, h1, h2, h3, h4,
      inputTitle, inputAddress, inputDescription, inputLogin, inputNetworkPort, inputIdentityFile]

theorem save_validation_failure_witness :
    sampleFailModel.inputs.length = 6 ∧ (1 : Nat) < 6 ∧
    (∀ j, j < 1 → runValidate (sampleFailModel.getInput j) = none) ∧
    runValidate (sampleFailModel.getInput 1) = some (gs "value is required") ∧
    (save sampleFailModel).snd = [] :=
  ⟨by decide, by decide, by decide, by decide,
    (save_validation_failure sampleFailModel 1 (gs "value is required")
      (by decide) (by decide) (by decide) (by decide)).1⟩
